import Mathlib

/-!
# Verification of the DSRF flat-file parser (`dsrf/parsers/dsrf_file_parser.py`)

Shallow embedding of `DSRFFileParser` and the constants it uses
(`dsrf/constants.py`).  The parser consumes the tokenized lines of one
tab-separated file (the output of `csv.reader`, one `List String` per
physical line) and produces protocol-buffer `Block` objects, catching
row-level validation errors and continuing, while any other exception
aborts the whole parse.

Python exceptions are modelled explicitly: `PyErr.validationError` stands
for `error.RowValidationFailure` (a subclass of `error.ValidationError`,
the only class caught by the per-line `except` in `parse_file`), while
`PyErr.indexError` / `PyErr.typeError` stand for the builtin exceptions,
which nothing in the parser catches.
-/

namespace DSRF

/-! ## Constants (`dsrf/constants.py`) -/

/-- `constants.HEAD_ROWS`: row types considered as block type HEAD. -/
def HEAD_ROWS : List String := ["HEAD", "SY01", "SY02", "SY03", "SY04", "FHEA"]

/-- `constants.FOOT_ROWS`: row types considered as block type FOOT. -/
def FOOT_ROWS : List String := ["FOOT", "FFOO"]

/-- `constants.COMMENT_SIGN`: a comment line sign. -/
def COMMENT_SIGN : String := "#"

/-! ## Protocol-buffer data model (`block_pb2`, `row_pb2`, `cell_pb2`)

The `.proto` definitions are not part of the parser sources, but the
parser pins down what matters here: `cell_pb2` has the enum
`STRING/INTEGER/DECIMAL/BOOLEAN` with one repeated typed field per enum
value, and `block_pb2.Block.type` is a proto2 optional enum whose first
value is `HEAD = 0` — the comment in `DSRFFileParser.is_end_of_block`
says so directly ("new blocks default type is HEAD"), and
`parse_file` relies on it with the falsiness test
`if not current_block.type`.  An unset proto2 enum field reads as its
default (`HEAD`), which `Block.typeVal` models. -/

/-- `cell_pb2` cell type enum. -/
inductive CellType
  | STRING
  | INTEGER
  | DECIMAL
  | BOOLEAN
deriving DecidableEq, Repr

/-- A Python runtime value as produced by a cell validator: one of the
`int`/`float`/`str`/`bool` scalars (floats modelled as rationals). -/
inductive PyVal
  | str (s : String)
  | int (i : Int)
  | dec (q : Rat)
  | bool (b : Bool)
deriving DecidableEq, Repr

/-- The shape of a non-`None` validator result: a scalar, or already a
Python list (`isinstance(cell_parsed_data, list)`). -/
inductive PyData
  | scalar (v : PyVal)
  | list (vs : List PyVal)
deriving DecidableEq, Repr

/-- Python exceptions reachable in the parser.  Only `validationError`
(= `error.ValidationError` and its subclass `RowValidationFailure`) is
caught by `parse_file`'s per-line handler. -/
inductive PyErr
  | validationError (row_number : Nat) (file_name : String) (msg : String)
  | indexError
  | typeError
deriving DecidableEq, Repr

/-- `cell_pb2.Cell`: name, type tag, and one repeated field per type
(only the field matching `cell_type` is ever populated). -/
structure Cell where
  name : String
  cell_type : CellType
  string_value : List String := []
  integer_value : List Int := []
  decimal_value : List Rat := []
  boolean_value : List Bool := []
deriving DecidableEq, Repr

/-- The typed values stored in a `Cell`, tagged uniformly. -/
def Cell.values (c : Cell) : List PyVal :=
  c.string_value.map PyVal.str ++ c.integer_value.map PyVal.int ++
    c.decimal_value.map PyVal.dec ++ c.boolean_value.map PyVal.bool

/-- The runtime type tag of a `PyVal`. -/
def pyTypeOf : PyVal → CellType
  | .str _ => .STRING
  | .int _ => .INTEGER
  | .dec _ => .DECIMAL
  | .bool _ => .BOOLEAN

/-- `row_pb2.Row`. -/
structure Row where
  type : String
  row_number : Nat
  cells : List Cell := []
deriving DecidableEq, Repr

/-- `block_pb2` block type enum; `HEAD = 0` is the proto2 default. -/
inductive BlockType
  | HEAD
  | BODY
  | FOOT
deriving DecidableEq, Repr

/-- `block_pb2.Block`.  `type = none` models the proto2 field being
unset (never assigned); reading it through the accessor yields the
default `HEAD`, see `Block.typeVal`. -/
structure Block where
  file_number : Nat
  type : Option BlockType := none
  number : Int := 0
  version : String := ""
  rows : List Row := []
deriving DecidableEq, Repr

/-- The value a Python read of `block.type` yields: the stored value, or
the proto2 default `HEAD` (enum value 0) when the field is unset. -/
def Block.typeVal (b : Block) : BlockType := b.type.getD .HEAD

/-- `block_pb2.Block(file_number=file_number)`: a fresh block with all
other fields at their proto defaults. -/
def initBlock (file_number : Nat) : Block := { file_number := file_number }

/-! ## Cell validators (external capability)

`cell_validators.BaseCellValidator` subclasses are external to the
parser.  `validate_value(cell_content, row_number, file_name,
block_number)` returns parsed data (`.ok (some d)`), `None`
(`.ok none`) or raises a validation error (`.error msg`).  The
`block_number` argument receives either the integer block number (body
rows) or the row-type string (HEAD/FOOT rows), which `BlockCtx`
captures. -/

/-- The `block_number` argument passed to validators: an integer for
body rows, the row-type string for HEAD/FOOT-class rows. -/
inductive BlockCtx
  | num (n : Int)
  | typ (row_type : String)
deriving DecidableEq, Repr

/-- An external cell validator: its declared cell name and type, and its
`validate_value` behaviour. -/
structure CellValidator where
  cell_name : String
  cell_type : CellType
  validate_value : String → Nat → String → BlockCtx → Except String (Option PyData)

/-- The row-type → ordered validator list table
(`row_validators_list`); `none` entries are falsy placeholder
validators, skipped by `get_row_object`. -/
def ValidatorTable := String → Option (List (Option CellValidator))

/-! ## Helpers: Python string primitives

Lean's builtin `String.toUpper`, `String.startsWith`, `String.trim`
and `String.toNat?` recurse over byte positions and do not reduce in
the kernel, so the Python primitives are modelled over the character
list `String.data`; each agrees with the corresponding builtin. -/

/-- Python's `str.upper()` (the inputs of interest are ASCII):
upper-case every character. -/
def pyUpper (s : String) : String := ⟨s.data.map Char.toUpper⟩

/-- Python's `str.startswith(t)`. -/
def pyStartsWith (s t : String) : Bool := t.data.isPrefixOf s.data

/-- Python's `str.strip()` on the character list: drop whitespace from
both ends. -/
def pyStrip (s : String) : List Char :=
  ((s.data.dropWhile Char.isWhitespace).reverse.dropWhile Char.isWhitespace).reverse

/-- Decimal value of a digit list. -/
def digitsToNat (cs : List Char) : Nat :=
  cs.foldl (fun n c => n * 10 + (c.toNat - '0'.toNat)) 0

/-- Python `int(s)` on a string: optional surrounding whitespace, an
optional sign, then one or more decimal digits; `none` models
`ValueError`. -/
def pyInt (s : String) : Option Int :=
  match pyStrip s with
  | '-' :: ds =>
    if ds ≠ [] ∧ ds.all Char.isDigit then some (-(digitsToNat ds : Int)) else none
  | '+' :: ds =>
    if ds ≠ [] ∧ ds.all Char.isDigit then some ((digitsToNat ds : Int)) else none
  | ds =>
    if ds ≠ [] ∧ ds.all Char.isDigit then some ((digitsToNat ds : Int)) else none

/-! ## `DSRFFileParser` methods -/

/-- `DSRFFileParser.get_block_number`: `int(line[1])`, converting
`ValueError` into a `RowValidationFailure`.  The `except` clause also
catches the `IndexError` of a missing `line[1]`, but the handler's
message rebuilds `line[1].upper()`, which raises `IndexError` again —
uncaught — so a line with fewer than two fields yields
`PyErr.indexError`, not a validation failure. -/
def get_block_number (file_name : String) (line : List String) (row_number : Nat) :
    Except PyErr Int :=
  match line.get? 1 with
  | none => .error .indexError
  | some s =>
    match pyInt s with
    | some n => .ok n
    | none => .error (.validationError row_number file_name
        ("The block id \x22" ++ pyUpper s ++ "\x22 in line number " ++
          toString row_number ++ " was expected to be an integer."))

/-- Extract the `str` payloads of a list of values; `none` models the
`TypeError` protobuf raises when a repeated string field is extended
with a non-string. -/
def strList : List PyVal → Option (List String)
  | [] => some []
  | .str s :: rest => (strList rest).map (s :: ·)
  | _ => none

/-- Extract the `int` payloads, as for `strList`. -/
def intList : List PyVal → Option (List Int)
  | [] => some []
  | .int i :: rest => (intList rest).map (i :: ·)
  | _ => none

/-- Extract the `float` payloads, as for `strList`. -/
def decList : List PyVal → Option (List Rat)
  | [] => some []
  | .dec q :: rest => (decList rest).map (q :: ·)
  | _ => none

/-- Extract the `bool` payloads, as for `strList`. -/
def boolList : List PyVal → Option (List Bool)
  | [] => some []
  | .bool b :: rest => (boolList rest).map (b :: ·)
  | _ => none

/-- The `if not isinstance(cell_parsed_data, list)` wrap of
`get_cell_object`: a scalar becomes a one-element list, a list is used
as-is. -/
def pyDataList : PyData → List PyVal
  | .scalar v => [v]
  | .list l => l

/-- `DSRFFileParser.get_cell_object`: wrap a scalar as a one-element
list, then extend the repeated field selected by the validator's
declared cell type; a value of the wrong runtime type makes the
protobuf `extend` raise `TypeError`. -/
def get_cell_object (cell_validator : CellValidator) (cell_parsed_data : PyData) :
    Except PyErr Cell :=
  match cell_validator.cell_type with
  | .STRING =>
    match strList (pyDataList cell_parsed_data) with
    | some ss =>
      .ok { name := cell_validator.cell_name, cell_type := .STRING, string_value := ss }
    | none => .error .typeError
  | .INTEGER =>
    match intList (pyDataList cell_parsed_data) with
    | some is =>
      .ok { name := cell_validator.cell_name, cell_type := .INTEGER, integer_value := is }
    | none => .error .typeError
  | .DECIMAL =>
    match decList (pyDataList cell_parsed_data) with
    | some ds =>
      .ok { name := cell_validator.cell_name, cell_type := .DECIMAL, decimal_value := ds }
    | none => .error .typeError
  | .BOOLEAN =>
    match boolList (pyDataList cell_parsed_data) with
    | some bs =>
      .ok { name := cell_validator.cell_name, cell_type := .BOOLEAN, boolean_value := bs }
    | none => .error .typeError

/-- The cell loop of `DSRFFileParser.get_row_object`: iterate over
`zip(row_validator, line)`, skip falsy validators, call
`validate_value`, drop results equal to `None` or `''`, and assemble
the remaining cells in order.  A validator raising is modelled as a
`validationError` carrying the current row number and file name. -/
def build_cells (file_name : String) (row_number : Nat) (block_number : BlockCtx) :
    List (Option CellValidator × String) → Except PyErr (List Cell)
  | [] => .ok []
  | (none, _) :: rest => build_cells file_name row_number block_number rest
  | (some cv, content) :: rest =>
    match cv.validate_value content row_number file_name block_number with
    | .error msg => .error (.validationError row_number file_name msg)
    | .ok none => build_cells file_name row_number block_number rest
    | .ok (some d) =>
      -- `if cell_parsed_data not in (None, ''):` — only `None` and the
      -- empty string are filtered; any list (even empty) passes.
      if d = PyData.scalar (.str "") then
        build_cells file_name row_number block_number rest
      else
        match get_cell_object cv d with
        | .error e => .error e
        | .ok c =>
          (build_cells file_name row_number block_number rest).map (c :: ·)

/-- `DSRFFileParser.get_row_object`: a `Row` with `type =
line[0].upper()`, the given row number, and the cells assembled by
`build_cells`; `line[0]` on an empty line raises `IndexError`. -/
def get_row_object (file_name : String) (row_validator : List (Option CellValidator))
    (line : List String) (row_number : Nat) (block_number : BlockCtx) :
    Except PyErr Row :=
  match line with
  | [] => .error .indexError
  | f0 :: _ =>
    (build_cells file_name row_number block_number (row_validator.zip line)).map
      (fun cells => { type := pyUpper f0, row_number := row_number, cells := cells })

/-- `DSRFFileParser._get_row_type`: reject empty lines ("empty
Records"), upper-case the first field, and require it to be a key of
the validator table. -/
def get_row_type (file_name : String) (line : List String) (tbl : ValidatorTable)
    (row_number : Nat) : Except PyErr String :=
  match line with
  | [] => .error (.validationError row_number file_name
      "It is not permissible to include empty Records.")
  | f0 :: _ =>
    let row_type := pyUpper f0
    if (tbl row_type).isSome then .ok row_type
    else .error (.validationError row_number file_name
      ("Row type " ++ row_type ++ " does not exist in the XSD."))

/-- `DSRFFileParser.is_end_of_block`.  The comparisons use the raw
`line[0]` (not upper-cased).  A fresh block's unset type reads as the
default `HEAD`, so it takes the first branch; the short-circuit `or`
of the last branch only extracts the block number when `line[0]` is
not FOOT-class, and that extraction can raise. -/
def is_end_of_block (file_name : String) (line : List String) (row_number : Nat)
    (current_block : Block) : Except PyErr Bool :=
  match line with
  | [] => .error .indexError
  | f0 :: _ =>
    if current_block.typeVal = .HEAD then .ok (decide (f0 ∉ HEAD_ROWS))
    else if current_block.typeVal = .FOOT then .ok (decide (f0 ∉ FOOT_ROWS))
    else
      if f0 ∈ FOOT_ROWS then .ok true
      else (get_block_number file_name line row_number).map
        (fun n => decide (current_block.number ≠ n))

/-! ## The `parse_file` loop -/

/-- The mutable state of `parse_file`'s loop: the running row counter,
the block under construction, the blocks already yielded, and the
validation errors passed to `self.logger.error`. -/
structure ParserSt where
  rowNumber : Nat
  cur : Block
  blocks : List Block
  errs : List PyErr

/-- Outcome of processing one line: the next state, or an uncaught
exception (the state records the mutations made before the raise). -/
inductive StepOut
  | ok (st : ParserSt)
  | fatal (st : ParserSt) (e : PyErr)

/-- `except error.ValidationError as e: self.logger.error(e)` — a
validation error is logged and the loop continues; anything else
propagates out of the generator. -/
def catchLine (st : ParserSt) (e : PyErr) : StepOut :=
  match e with
  | .validationError r f m =>
    .ok { st with errs := st.errs ++ [.validationError r f m] }
  | .indexError => .fatal st .indexError
  | .typeError => .fatal st .typeError

/-- Build the row and append it to the current block
(`current_block.rows.extend([...])`); a raising validator is caught by
the per-line handler, keeping the mutations already made. -/
def appendRow (tbl : ValidatorTable) (file_name : String) (row_type : String)
    (line : List String) (row_number : Nat) (st : ParserSt) (block_number : BlockCtx) :
    StepOut :=
  match get_row_object file_name ((tbl row_type).getD []) line row_number block_number with
  | .error e => catchLine st e
  | .ok row => .ok { st with cur := { st.cur with rows := st.cur.rows ++ [row] } }

/-- The HEAD/FOOT-class branch of the loop body: set the block type to
HEAD, override it to FOOT for FOOT-class rows, capture the version
from `line[1]` when the row type is exactly `HEAD` (raising
`IndexError` if the field is missing), then build and append the row,
passing the row-type string as the `block_number` argument. -/
def headFootStep (tbl : ValidatorTable) (file_name : String) (row_type : String)
    (line : List String) (row_number : Nat) (st : ParserSt) : StepOut :=
  let cur := { st.cur with type := some .HEAD }
  let cur := if row_type ∈ FOOT_ROWS then { cur with type := some .FOOT } else cur
  if row_type = "HEAD" then
    match line.get? 1 with
    | none => .fatal { st with cur := cur } .indexError
    | some v =>
      appendRow tbl file_name row_type line row_number
        { st with cur := { cur with version := v } } (.typ row_type)
  else
    appendRow tbl file_name row_type line row_number { st with cur := cur } (.typ row_type)

/-- The body-row branch of the loop body: extract the block number,
build the row (both can raise a caught validation failure before any
mutation), then — `if not current_block.type`, i.e. the type reads as
the default `HEAD` — set the type to BODY and record the block number,
and append the row. -/
def bodyStep (tbl : ValidatorTable) (file_name : String) (row_type : String)
    (line : List String) (row_number : Nat) (st : ParserSt) : StepOut :=
  match get_block_number file_name line row_number with
  | .error e => catchLine st e
  | .ok bn =>
    match get_row_object file_name ((tbl row_type).getD []) line row_number (.num bn) with
    | .error e => catchLine st e
    | .ok row =>
      let cur := if st.cur.typeVal = .HEAD
        then { st.cur with type := some .BODY, number := bn }
        else st.cur
      .ok { st with cur := { cur with rows := cur.rows ++ [row] } }

/-- One iteration of `parse_file`'s `for` loop on a tokenized line:
bump the row counter, test `line[0].startswith('#')` — which raises an
uncaught `IndexError` on an empty line, before the `try` block —, then
classify the row type, run the end-of-block check (yielding the
current block and opening a fresh one when it fires), and dispatch to
the HEAD/FOOT or body branch; validation errors anywhere in the `try`
are logged and the line is skipped. -/
def parseStep (tbl : ValidatorTable) (file_name : String) (file_number : Nat)
    (st : ParserSt) (line : List String) : StepOut :=
  let st := { st with rowNumber := st.rowNumber + 1 }
  match line with
  | [] => .fatal st .indexError
  | f0 :: _ =>
    if pyStartsWith f0 COMMENT_SIGN then .ok st
    else
      let rn := st.rowNumber
      match get_row_type file_name line tbl rn with
      | .error e => catchLine st e
      | .ok row_type =>
        match is_end_of_block file_name line rn st.cur with
        | .error e => catchLine st e
        | .ok close =>
          let st := if close
            then { st with blocks := st.blocks ++ [st.cur], cur := initBlock file_number }
            else st
          if row_type ∈ HEAD_ROWS ∨ row_type ∈ FOOT_ROWS then
            headFootStep tbl file_name row_type line rn st
          else bodyStep tbl file_name row_type line rn st

/-- Run the loop over the remaining lines, stopping at the first
uncaught exception. -/
def runLines (tbl : ValidatorTable) (file_name : String) (file_number : Nat) :
    ParserSt → List (List String) → StepOut
  | st, [] => .ok st
  | st, l :: rest =>
    match parseStep tbl file_name file_number st l with
    | .ok st' => runLines tbl file_name file_number st' rest
    | .fatal st' e => .fatal st' e

/-- What a consumer of the `parse_file` generator observes: the blocks
yielded (in order) and the errors logged, with a possible trailing
uncaught exception. -/
inductive ParseResult
  | ok (blocks : List Block) (errs : List PyErr)
  | fatal (blocks : List Block) (errs : List PyErr) (e : PyErr)
deriving DecidableEq, Repr

/-- The initial loop state: `row_number = 0`, a fresh block, nothing
yielded. -/
def initSt (file_number : Nat) : ParserSt :=
  { rowNumber := 0, cur := initBlock file_number, blocks := [], errs := [] }

/-- `DSRFFileParser.parse_file` on the tokenized lines of the file: run
the loop from the initial state; on normal exhaustion the final `yield
current_block` flushes the last open block, while an uncaught
exception ends the generator after the blocks yielded so far. -/
def parse_file (tbl : ValidatorTable) (file_name : String) (file_number : Nat)
    (lines : List (List String)) : ParseResult :=
  match runLines tbl file_name file_number (initSt file_number) lines with
  | .ok st => .ok (st.blocks ++ [st.cur]) st.errs
  | .fatal st e => .fatal st.blocks st.errs e

/-- The blocks a consumer received, whether or not the parse ended in
an uncaught exception. -/
def emittedBlocks : ParseResult → List Block
  | .ok bs _ => bs
  | .fatal bs _ _ => bs

/-- Whether the generator was exhausted without an uncaught exception. -/
def ParseResult.isOk : ParseResult → Bool
  | .ok _ _ => true
  | .fatal _ _ _ => false

/-- The loop state a `StepOut` carries (the state reached when the
uncaught exception was raised, in the `fatal` case). -/
def StepOut.state : StepOut → ParserSt
  | .ok st => st
  | .fatal st _ => st

/-! ## Concrete fixtures for the scenario claims -/

/-- An accept-everything string validator: returns its raw cell content
as a string scalar ("all validators accepting"). -/
def acceptString (nm : String) : CellValidator :=
  { cell_name := nm, cell_type := .STRING,
    validate_value := fun content _ _ _ => .ok (some (.scalar (.str content))) }

/-- The validator table of the claim C1 scenario: `HEAD` and `SY01`
HEAD-class, `BODY01` a body type, `FOOT` FOOT-class, all validators
accepting. -/
def tblC1 : ValidatorTable := fun rt =>
  if rt = "HEAD" then some [some (acceptString "RowType"), some (acceptString "Version")]
  else if rt = "SY01" then some [some (acceptString "RowType"), some (acceptString "V1")]
  else if rt = "BODY01" then
    some [some (acceptString "RowType"), some (acceptString "BlockId"),
          some (acceptString "V")]
  else if rt = "FOOT" then some [some (acceptString "RowType"), some (acceptString "V1")]
  else none

/-- The tokenized input lines of the claim C1 scenario. -/
def linesC1 : List (List String) :=
  [["HEAD", "3.0"], ["SY01", "x"], ["BODY01", "1", "foo"], ["BODY01", "1", "bar"],
   ["BODY01", "2", "baz"], ["FOOT", "done"]]

/-- A minimal validator table (no cell validators configured) used by
witnesses: rows of the three known types carry no cells. -/
def tblW : ValidatorTable := fun rt =>
  if rt = "HEAD" ∨ rt = "FOOT" ∨ rt = "BODY01" then some [] else none

/-- The boundary rule exactly as claim C2 states it, over the
classified (upper-cased) row type, with the "unset" state read as the
block's `type` field being unassigned: HEAD closes on a non-HEAD-class
type, FOOT on a non-FOOT-class type, and BODY-or-unset closes on a
FOOT-class type or a differing block number. -/
def spec_is_end_of_block (file_name : String) (line : List String) (row_number : Nat)
    (current_block : Block) : Except PyErr Bool :=
  match line with
  | [] => .error .indexError
  | f0 :: _ =>
    let rt := pyUpper f0
    match current_block.type with
    | some .HEAD => .ok (decide (rt ∉ HEAD_ROWS))
    | some .FOOT => .ok (decide (rt ∉ FOOT_ROWS))
    | some .BODY | none =>
      if rt ∈ FOOT_ROWS then .ok true
      else (get_block_number file_name line row_number).map
        (fun n => decide (current_block.number ≠ n))

/-! ## Claim theorems -/

/-- **C1.** Parsing the scenario input (`HEAD 3.0`, `SY01 x`,
`BODY01 1 foo`, `BODY01 1 bar`, `BODY01 2 baz`, `FOOT done`, with
SY01/HEAD classed HEAD, BODY01 a body type, FOOT FOOT-class, all
validators accepting) completes normally and yields exactly four
blocks in order: a HEAD block with version "3.0" and 2 rows, a BODY
block with number 1 and 2 rows, a BODY block with number 2 and 1 row,
and a FOOT block with 1 row. -/
theorem C1_scenario_blocks :
    (parse_file tblC1 "f" 1 linesC1).isOk = true ∧
    (emittedBlocks (parse_file tblC1 "f" 1 linesC1)).map
        (fun b => (b.type, b.version, b.number, b.rows.length)) =
      [(some .HEAD, "3.0", 0, 2), (some .BODY, "", 1, 2),
       (some .BODY, "", 2, 1), (some .FOOT, "", 0, 1)] := by
  constructor
  · rfl
  · rfl

/-- **C2, counterexample.** The boundary rule of the claim — phrased
over the upper-cased row type, with a distinct "unset" state — does
not match `is_end_of_block`: on a fresh block (type unset, number 0)
and the body line `["BODY01", "0"]`, the claim's rule keeps the block
open (the extracted number 0 equals the stored number 0), but the
code closes it, because a fresh block's type field reads as the
default `HEAD` and the raw first field is not HEAD-class. -/
theorem C2_spec_rule_counterexample :
    is_end_of_block "f" ["BODY01", "0"] 1 (initBlock 1) = .ok true ∧
    spec_is_end_of_block "f" ["BODY01", "0"] 1 (initBlock 1) = .ok false ∧
    is_end_of_block "f" ["BODY01", "0"] 1 (initBlock 1) ≠
      spec_is_end_of_block "f" ["BODY01", "0"] 1 (initBlock 1) := by
  refine ⟨rfl, rfl, fun h => ?_⟩
  rw [show is_end_of_block "f" ["BODY01", "0"] 1 (initBlock 1) = .ok true from rfl,
    show spec_is_end_of_block "f" ["BODY01", "0"] 1 (initBlock 1) = .ok false from rfl] at h
  cases h

/-- **C2, amended.** `is_end_of_block` follows the claimed rules with
two changes forced by the code: the row-type comparisons use the raw
first field of the line (not upper-cased), and a block whose type
field is unset reads as the default `HEAD` and so follows the HEAD
rule — the FOOT-class-or-number-differs rule applies only to blocks
explicitly typed BODY. -/
theorem C2_boundary_rules_raw (file_name : String) (f0 : String) (rest : List String)
    (row_number : Nat) (b : Block) :
    (b.typeVal = .HEAD →
      is_end_of_block file_name (f0 :: rest) row_number b =
        .ok (decide (f0 ∉ HEAD_ROWS))) ∧
    (b.typeVal = .FOOT →
      is_end_of_block file_name (f0 :: rest) row_number b =
        .ok (decide (f0 ∉ FOOT_ROWS))) ∧
    (b.typeVal = .BODY →
      is_end_of_block file_name (f0 :: rest) row_number b =
        (if f0 ∈ FOOT_ROWS then .ok true
         else (get_block_number file_name (f0 :: rest) row_number).map
           (fun n => decide (b.number ≠ n)))) := by
  refine ⟨fun h => ?_, fun h => ?_, fun h => ?_⟩ <;>
    simp [is_end_of_block, h]

/-- Witness for `C2_boundary_rules_raw`: a block explicitly typed BODY
with number 5 meets a FOOT line, and the code closes it. -/
theorem C2_boundary_rules_raw_witness :
    is_end_of_block "f" ["FOOT", "x"] 3
      { file_number := 1, type := some .BODY, number := 5 } = .ok true := by
  have h := (C2_boundary_rules_raw "f" "FOOT" ["x"] 3
    { file_number := 1, type := some .BODY, number := 5 }).2.2 rfl
  simpa using h

/-- **C3.** An empty tokenized line does not produce the recoverable
"empty Records" validation error the claim describes: the comment test
`line[0].startswith('#')` runs before the `try` block and raises an
uncaught `IndexError`, so the whole parse aborts — here a file with a
valid HEAD line, an empty line, and a valid FOOT line yields no blocks
at all instead of skipping the empty line and continuing. -/
theorem C3_empty_line_aborts :
    parse_file tblC1 "f" 1 [["HEAD", "3.0"], [], ["FOOT", "done"]] =
      ParseResult.fatal [] [] .indexError := by
  rfl

/-- **C4.** A body row whose second field is missing does not raise the
recoverable row-validation failure the claim describes: the `except`
clause of `get_block_number` catches the original `IndexError`, but
its error message re-evaluates `line[1].upper()`, raising `IndexError`
again, uncaught — so the parse aborts (after flushing the initial
empty block, closed by this body row). -/
theorem C4_missing_block_id_aborts :
    parse_file tblC1 "f" 1 [["BODY01"]] =
      ParseResult.fatal [initBlock 1] [] .indexError := by
  rfl

/-- **C5, counterexample.** `parse_file` does not always yield at least
one block: on an input consisting of one empty line the generator
raises an uncaught `IndexError` before any yield, so the consumer
receives zero blocks. -/
theorem C5_no_terminal_flush_counterexample :
    (emittedBlocks (parse_file tblC1 "f" 1 [[]])).length = 0 ∧
    (parse_file tblC1 "f" 1 [[]]).isOk = false := by
  exact ⟨rfl, rfl⟩

/-- **C5, amended.** Whenever the line source is exhausted without an
uncaught exception, the last open block is flushed by the terminal
yield, so the parse yields at least one block; in particular the empty
input yields exactly the single fresh block. An input that raises an
uncaught exception (see `C5_no_terminal_flush_counterexample`) never
reaches the terminal flush. -/
theorem C5_terminal_flush :
    (∀ (tbl : ValidatorTable) (fn : String) (fno : Nat) (ls : List (List String))
        (bs : List Block) (errs : List PyErr),
      parse_file tbl fn fno ls = ParseResult.ok bs errs → 1 ≤ bs.length) ∧
    (∀ (tbl : ValidatorTable) (fn : String) (fno : Nat),
      parse_file tbl fn fno [] = ParseResult.ok [initBlock fno] []) := by
  constructor
  · intro tbl fn fno ls bs errs h
    unfold parse_file at h
    cases hr : runLines tbl fn fno (initSt fno) ls with
    | ok st =>
      rw [hr] at h
      cases h
      simp
    | fatal st e =>
      rw [hr] at h
      cases h
  · intro tbl fn fno
    rfl

/-- Witness for `C5_terminal_flush`: the empty input yields exactly one
block, so its block count is at least one. -/
theorem C5_terminal_flush_witness :
    1 ≤ ([initBlock 7] : List Block).length ∧
    parse_file tblC1 "f" 7 [] = ParseResult.ok [initBlock 7] [] :=
  ⟨C5_terminal_flush.1 tblC1 "f" 7 [] [initBlock 7] [] (C5_terminal_flush.2 tblC1 "f" 7),
   C5_terminal_flush.2 tblC1 "f" 7⟩

/-! ## Step-level lemmas -/

theorem getLast?_append_single {α : Type} (l : List α) (a : α) :
    (l ++ [a]).getLast? = some a := by
  simp [List.getLast?_append]

/-- HEAD-class row types are already upper-case, so upper-casing
changes nothing on them. -/
theorem pyUpper_of_mem_HEAD_ROWS {f0 : String} (h : f0 ∈ HEAD_ROWS) :
    pyUpper f0 = f0 := by
  fin_cases h <;> rfl

/-- FOOT-class row types are already upper-case. -/
theorem pyUpper_of_mem_FOOT_ROWS {f0 : String} (h : f0 ∈ FOOT_ROWS) :
    pyUpper f0 = f0 := by
  fin_cases h <;> rfl

/-- `appendRow` on a successfully built row appends it to the current
block. -/
theorem appendRow_ok (tbl : ValidatorTable) (fn rt : String) (l : List String)
    (rn : Nat) (st : ParserSt) (bn : BlockCtx) (row : Row)
    (hrow : get_row_object fn ((tbl rt).getD []) l rn bn = .ok row) :
    appendRow tbl fn rt l rn st bn =
      .ok { st with cur := { st.cur with rows := st.cur.rows ++ [row] } } := by
  simp [appendRow, hrow]

/-- `headFootStep` on a successfully built row: the block's rows are
extended by exactly that row (type/version updates leave rows alone). -/
theorem headFootStep_ok (tbl : ValidatorTable) (fn rt : String) (l : List String)
    (rn : Nat) (st : ParserSt) (row : Row)
    (hrow : get_row_object fn ((tbl rt).getD []) l rn (.typ rt) = .ok row)
    (hver : rt = "HEAD" → ∃ v, l[1]? = some v) :
    ∃ cur', headFootStep tbl fn rt l rn st = .ok { st with cur := cur' } ∧
      cur'.rows = st.cur.rows ++ [row] := by
  by_cases hH : rt = "HEAD"
  · obtain ⟨v, hv⟩ := hver hH
    subst hH
    have hnf : "HEAD" ∉ FOOT_ROWS := by decide
    refine ⟨{ st.cur with type := some .HEAD, version := v, rows := st.cur.rows ++ [row] },
      ?_, rfl⟩
    simp [headFootStep, hv, hnf, appendRow, hrow]
  · by_cases hFt : rt ∈ FOOT_ROWS
    · refine ⟨{ st.cur with type := some .FOOT, rows := st.cur.rows ++ [row] }, ?_, rfl⟩
      simp [headFootStep, hH, hFt, appendRow, hrow]
    · refine ⟨{ st.cur with type := some .HEAD, rows := st.cur.rows ++ [row] }, ?_, rfl⟩
      simp [headFootStep, hH, hFt, appendRow, hrow]

/-- `bodyStep` on a successfully extracted block number and built row:
the block's rows are extended by exactly that row. -/
theorem bodyStep_ok (tbl : ValidatorTable) (fn rt : String) (l : List String)
    (rn : Nat) (st : ParserSt) (bn : Int) (row : Row)
    (hbn : get_block_number fn l rn = .ok bn)
    (hrow : get_row_object fn ((tbl rt).getD []) l rn (.num bn) = .ok row) :
    ∃ cur', bodyStep tbl fn rt l rn st = .ok { st with cur := cur' } ∧
      cur'.rows = st.cur.rows ++ [row] := by
  by_cases ht : st.cur.typeVal = BlockType.HEAD
  · refine ⟨{ st.cur with type := some .BODY, number := bn, rows := st.cur.rows ++ [row] },
      ?_, rfl⟩
    simp [bodyStep, hbn, hrow, ht]
  · refine ⟨{ st.cur with rows := st.cur.rows ++ [row] }, ?_, rfl⟩
    simp [bodyStep, hbn, hrow, ht]

/-- Unfolding of `parseStep` on a non-comment line with a known row
type and a successful end-of-block check: bump the counter, flush the
current block if the check fired, and dispatch on the class of the
row type. -/
theorem parseStep_dispatch (tbl : ValidatorTable) (fn : String) (fno : Nat)
    (st : ParserSt) (f0 : String) (restf : List String) (close : Bool)
    (hc : pyStartsWith f0 COMMENT_SIGN = false)
    (hT : (tbl (pyUpper f0)).isSome = true)
    (hE : is_end_of_block fn (f0 :: restf) (st.rowNumber + 1) st.cur = .ok close) :
    parseStep tbl fn fno st (f0 :: restf) =
      (if pyUpper f0 ∈ HEAD_ROWS ∨ pyUpper f0 ∈ FOOT_ROWS then
        headFootStep tbl fn (pyUpper f0) (f0 :: restf) (st.rowNumber + 1)
          (if close
           then { st with rowNumber := st.rowNumber + 1,
                          blocks := st.blocks ++ [st.cur], cur := initBlock fno }
           else { st with rowNumber := st.rowNumber + 1 })
      else
        bodyStep tbl fn (pyUpper f0) (f0 :: restf) (st.rowNumber + 1)
          (if close
           then { st with rowNumber := st.rowNumber + 1,
                          blocks := st.blocks ++ [st.cur], cur := initBlock fno }
           else { st with rowNumber := st.rowNumber + 1 })) := by
  unfold parseStep get_row_type
  simp only [hc, Bool.false_eq_true, if_false, hT, if_pos]
  rw [hE]

/-- A successfully built row carries the given row number and the
upper-cased first field as its type. -/
theorem get_row_object_ok {fn : String} {rvs : List (Option CellValidator)}
    {f0 : String} {restf : List String} {rn : Nat} {bn : BlockCtx} {row : Row}
    (h : get_row_object fn rvs (f0 :: restf) rn bn = .ok row) :
    row.row_number = rn ∧ row.type = pyUpper f0 := by
  unfold get_row_object at h
  cases hb : build_cells fn rn bn (rvs.zip (f0 :: restf)) with
  | error e => rw [hb] at h; cases h
  | ok cs =>
    rw [hb] at h
    cases h
    exact ⟨rfl, rfl⟩

/-- `catchLine` never touches the current block, the emitted blocks or
the row counter. -/
theorem catchLine_state (st : ParserSt) (e : PyErr) :
    (catchLine st e).state.cur = st.cur ∧ (catchLine st e).state.blocks = st.blocks ∧
      (catchLine st e).state.rowNumber = st.rowNumber := by
  cases e <;> exact ⟨rfl, rfl, rfl⟩

/-- Case analysis of `headFootStep`: the counter and the emitted blocks
are untouched, and the current block's rows either stay put (a caught
or fatal error) or grow by exactly the row built with the row-type
string as block context. -/
theorem headFootStep_cases (tbl : ValidatorTable) (fn rt : String) (l : List String)
    (rn : Nat) (st : ParserSt) :
    (headFootStep tbl fn rt l rn st).state.rowNumber = st.rowNumber ∧
    (headFootStep tbl fn rt l rn st).state.blocks = st.blocks ∧
    ((headFootStep tbl fn rt l rn st).state.cur.rows = st.cur.rows ∨
      ∃ row, get_row_object fn ((tbl rt).getD []) l rn (.typ rt) = .ok row ∧
        (headFootStep tbl fn rt l rn st).state.cur.rows = st.cur.rows ++ [row]) := by
  have hnf : "HEAD" ∉ FOOT_ROWS := by decide
  by_cases hH : rt = "HEAD"
  · subst hH
    cases hv : l[1]? with
    | none =>
      refine ⟨?_, ?_, Or.inl ?_⟩ <;> simp [headFootStep, hv, hnf, StepOut.state]
    | some v =>
      cases hro : get_row_object fn ((tbl "HEAD").getD []) l rn (.typ "HEAD") with
      | error e =>
        cases e <;>
          (refine ⟨?_, ?_, Or.inl ?_⟩ <;>
            simp [headFootStep, hv, hnf, appendRow, hro, catchLine, StepOut.state])
      | ok row =>
        refine ⟨?_, ?_, Or.inr ⟨row, rfl, ?_⟩⟩ <;>
          simp [headFootStep, hv, hnf, appendRow, hro, StepOut.state]
  · by_cases hFt : rt ∈ FOOT_ROWS
    · cases hro : get_row_object fn ((tbl rt).getD []) l rn (.typ rt) with
      | error e =>
        cases e <;>
          (refine ⟨?_, ?_, Or.inl ?_⟩ <;>
            simp [headFootStep, hH, hFt, appendRow, hro, catchLine, StepOut.state])
      | ok row =>
        refine ⟨?_, ?_, Or.inr ⟨row, rfl, ?_⟩⟩ <;>
          simp [headFootStep, hH, hFt, appendRow, hro, StepOut.state]
    · cases hro : get_row_object fn ((tbl rt).getD []) l rn (.typ rt) with
      | error e =>
        cases e <;>
          (refine ⟨?_, ?_, Or.inl ?_⟩ <;>
            simp [headFootStep, hH, hFt, appendRow, hro, catchLine, StepOut.state])
      | ok row =>
        refine ⟨?_, ?_, Or.inr ⟨row, rfl, ?_⟩⟩ <;>
          simp [headFootStep, hH, hFt, appendRow, hro, StepOut.state]

/-- Case analysis of `bodyStep`: the counter and the emitted blocks are
untouched, and the current block's rows either stay put (a caught
error) or grow by exactly the row built with the extracted integer
block number as block context. -/
theorem bodyStep_cases (tbl : ValidatorTable) (fn rt : String) (l : List String)
    (rn : Nat) (st : ParserSt) :
    (bodyStep tbl fn rt l rn st).state.rowNumber = st.rowNumber ∧
    (bodyStep tbl fn rt l rn st).state.blocks = st.blocks ∧
    ((bodyStep tbl fn rt l rn st).state.cur.rows = st.cur.rows ∨
      ∃ bn row, get_block_number fn l rn = .ok bn ∧
        get_row_object fn ((tbl rt).getD []) l rn (.num bn) = .ok row ∧
        (bodyStep tbl fn rt l rn st).state.cur.rows = st.cur.rows ++ [row]) := by
  unfold bodyStep
  cases hbn : get_block_number fn l rn with
  | error e => simp only [hbn]; cases e <;> exact ⟨rfl, rfl, Or.inl rfl⟩
  | ok bn =>
    simp only [hbn]
    cases hro : get_row_object fn ((tbl rt).getD []) l rn (.num bn) with
    | error e => simp only [hro]; cases e <;> exact ⟨rfl, rfl, Or.inl rfl⟩
    | ok row =>
      simp only [hro]
      by_cases ht : st.cur.typeVal = BlockType.HEAD
      · simp only [if_pos ht]; exact ⟨rfl, rfl, Or.inr ⟨bn, row, rfl, hro, rfl⟩⟩
      · simp only [if_neg ht]; exact ⟨rfl, rfl, Or.inr ⟨bn, row, rfl, hro, rfl⟩⟩

/-- Unfolding of `parseStep` on a non-comment line, before the row type
and end-of-block results are known. -/
theorem parseStep_eq (tbl : ValidatorTable) (fn : String) (fno : Nat) (st : ParserSt)
    (f0 : String) (restf : List String)
    (hc : pyStartsWith f0 COMMENT_SIGN = false) :
    parseStep tbl fn fno st (f0 :: restf) =
      (match get_row_type fn (f0 :: restf) tbl (st.rowNumber + 1) with
       | .error e => catchLine { st with rowNumber := st.rowNumber + 1 } e
       | .ok rt =>
         match is_end_of_block fn (f0 :: restf) (st.rowNumber + 1) st.cur with
         | .error e => catchLine { st with rowNumber := st.rowNumber + 1 } e
         | .ok close =>
           if rt ∈ HEAD_ROWS ∨ rt ∈ FOOT_ROWS then
             headFootStep tbl fn rt (f0 :: restf) (st.rowNumber + 1)
               (if close
                then { st with rowNumber := st.rowNumber + 1, blocks := st.blocks ++ [st.cur], cur := initBlock fno }
                else { st with rowNumber := st.rowNumber + 1 })
           else
             bodyStep tbl fn rt (f0 :: restf) (st.rowNumber + 1)
               (if close
                then { st with rowNumber := st.rowNumber + 1, blocks := st.blocks ++ [st.cur], cur := initBlock fno }
                else { st with rowNumber := st.rowNumber + 1 })) := by
  unfold parseStep
  simp only [hc, Bool.false_eq_true, if_false]

/-- Full case analysis of one loop step, as needed by the invariants:
the counter is bumped; the emitted blocks either stay or gain exactly
the previous current block; and the new current block's rows are a
base (the old rows, or empty after a flush) possibly extended by one
row whose number is the new counter value and whose type is the
upper-cased first field of the line. -/
theorem parseStep_cases (tbl : ValidatorTable) (fn : String) (fno : Nat)
    (st : ParserSt) (l : List String) :
    (parseStep tbl fn fno st l).state.rowNumber = st.rowNumber + 1 ∧
    ∃ base : List Row,
      (((parseStep tbl fn fno st l).state.blocks = st.blocks ∧ base = st.cur.rows) ∨
       ((parseStep tbl fn fno st l).state.blocks = st.blocks ++ [st.cur] ∧ base = [])) ∧
      ((parseStep tbl fn fno st l).state.cur.rows = base ∨
       ∃ f0 restf row, l = f0 :: restf ∧ row.row_number = st.rowNumber + 1 ∧
         row.type = pyUpper f0 ∧
         (parseStep tbl fn fno st l).state.cur.rows = base ++ [row]) := by
  cases l with
  | nil => exact ⟨rfl, st.cur.rows, Or.inl ⟨rfl, rfl⟩, Or.inl rfl⟩
  | cons f0 restf =>
    by_cases hc : pyStartsWith f0 COMMENT_SIGN = true
    · refine ⟨?_, st.cur.rows, Or.inl ⟨?_, rfl⟩, Or.inl ?_⟩ <;> simp [parseStep, hc, StepOut.state]
    · rw [parseStep_eq tbl fn fno st f0 restf (by simpa using hc)]
      cases hrt : get_row_type fn (f0 :: restf) tbl (st.rowNumber + 1) with
      | error e => cases e <;> exact ⟨rfl, st.cur.rows, Or.inl ⟨rfl, rfl⟩, Or.inl rfl⟩
      | ok rt =>
        cases hE : is_end_of_block fn (f0 :: restf) (st.rowNumber + 1) st.cur with
        | error e => cases e <;> exact ⟨rfl, st.cur.rows, Or.inl ⟨rfl, rfl⟩, Or.inl rfl⟩
        | ok close =>
          cases close with
          | false =>
            by_cases hcl : rt ∈ HEAD_ROWS ∨ rt ∈ FOOT_ROWS
            · simp only [if_pos hcl, Bool.false_eq_true, if_false]
              obtain ⟨h1, h2, h3⟩ := headFootStep_cases tbl fn rt (f0 :: restf)
                (st.rowNumber + 1) { st with rowNumber := st.rowNumber + 1 }
              refine ⟨h1, st.cur.rows, Or.inl ⟨h2, rfl⟩, ?_⟩
              rcases h3 with h | ⟨row, hro, hrows⟩
              · exact Or.inl h
              · exact Or.inr ⟨f0, restf, row, rfl, (get_row_object_ok hro).1,
                  (get_row_object_ok hro).2, hrows⟩
            · simp only [if_neg hcl, Bool.false_eq_true, if_false]
              obtain ⟨h1, h2, h3⟩ := bodyStep_cases tbl fn rt (f0 :: restf)
                (st.rowNumber + 1) { st with rowNumber := st.rowNumber + 1 }
              refine ⟨h1, st.cur.rows, Or.inl ⟨h2, rfl⟩, ?_⟩
              rcases h3 with h | ⟨bn, row, hbn, hro, hrows⟩
              · exact Or.inl h
              · exact Or.inr ⟨f0, restf, row, rfl, (get_row_object_ok hro).1,
                  (get_row_object_ok hro).2, hrows⟩
          | true =>
            by_cases hcl : rt ∈ HEAD_ROWS ∨ rt ∈ FOOT_ROWS
            · simp only [if_pos hcl, if_true]
              obtain ⟨h1, h2, h3⟩ := headFootStep_cases tbl fn rt (f0 :: restf)
                (st.rowNumber + 1)
                { st with rowNumber := st.rowNumber + 1, blocks := st.blocks ++ [st.cur], cur := initBlock fno }
              refine ⟨h1, [], Or.inr ⟨h2, rfl⟩, ?_⟩
              rcases h3 with h | ⟨row, hro, hrows⟩
              · exact Or.inl h
              · exact Or.inr ⟨f0, restf, row, rfl, (get_row_object_ok hro).1,
                  (get_row_object_ok hro).2, hrows⟩
            · simp only [if_neg hcl, if_true]
              obtain ⟨h1, h2, h3⟩ := bodyStep_cases tbl fn rt (f0 :: restf)
                (st.rowNumber + 1)
                { st with rowNumber := st.rowNumber + 1, blocks := st.blocks ++ [st.cur], cur := initBlock fno }
              refine ⟨h1, [], Or.inr ⟨h2, rfl⟩, ?_⟩
              rcases h3 with h | ⟨bn, row, hbn, hro, hrows⟩
              · exact Or.inl h
              · exact Or.inr ⟨f0, restf, row, rfl, (get_row_object_ok hro).1,
                  (get_row_object_ok hro).2, hrows⟩

/-- **C7.** A line whose upper-cased first field is not a known row
type (not HEAD-class, not FOOT-class, not in the validator table)
leaves the loop state unchanged except for the row counter and the
logged error: the current block (type, number and rows) and the list
of emitted blocks are untouched, and no row is produced. -/
theorem C7_unknown_row_type_skipped (tbl : ValidatorTable) (fn : String) (fno : Nat)
    (st : ParserSt) (f0 : String) (rest : List String)
    (hU : tbl (pyUpper f0) = none)
    (hH : pyUpper f0 ∉ HEAD_ROWS) (hF : pyUpper f0 ∉ FOOT_ROWS) :
    ∃ st', parseStep tbl fn fno st (f0 :: rest) = .ok st' ∧
      st'.cur = st.cur ∧ st'.blocks = st.blocks := by
  by_cases hc : pyStartsWith f0 COMMENT_SIGN = true
  · exact ⟨{ st with rowNumber := st.rowNumber + 1 }, by simp [parseStep, hc], rfl, rfl⟩
  · refine ⟨{ st with rowNumber := st.rowNumber + 1, errs := st.errs ++ [PyErr.validationError (st.rowNumber + 1) fn ("Row type " ++ pyUpper f0 ++ " does not exist in the XSD.")] },
      ?_, rfl, rfl⟩
    simp [parseStep, hc, get_row_type, hU, catchLine]

/-- Witness for `C7_unknown_row_type_skipped`: the unknown row type
`XX99` is skipped from the initial state. -/
theorem C7_unknown_row_type_skipped_witness :
    ∃ st', parseStep tblW "f" 1 (initSt 1) ["XX99", "y"] = .ok st' ∧
      st'.cur = (initSt 1).cur ∧ st'.blocks = (initSt 1).blocks :=
  C7_unknown_row_type_skipped tblW "f" 1 (initSt 1) "XX99" ["y"] rfl
    (by decide) (by decide)

/-- **C10.** Which `block_number` argument the cell validators receive:
a HEAD/FOOT-class row is built with the row-type *string* as the
`block_number` argument (`BlockCtx.typ`), while a body row is built
with the extracted *integer* block number (`BlockCtx.num`); in both
cases the row so built is the one appended to the current block. -/
theorem C10_validator_block_context (tbl : ValidatorTable) (fn : String) (fno : Nat)
    (st : ParserSt) (f0 : String) (restf : List String) (close : Bool)
    (hc : pyStartsWith f0 COMMENT_SIGN = false)
    (hT : (tbl (pyUpper f0)).isSome = true)
    (hE : is_end_of_block fn (f0 :: restf) (st.rowNumber + 1) st.cur = .ok close) :
    ((pyUpper f0 ∈ HEAD_ROWS ∨ pyUpper f0 ∈ FOOT_ROWS) →
      ∀ row, get_row_object fn ((tbl (pyUpper f0)).getD []) (f0 :: restf)
          (st.rowNumber + 1) (.typ (pyUpper f0)) = .ok row →
      (pyUpper f0 = "HEAD" → ∃ v, (f0 :: restf)[1]? = some v) →
      ∃ st', parseStep tbl fn fno st (f0 :: restf) = .ok st' ∧
        st'.cur.rows.getLast? = some row) ∧
    (pyUpper f0 ∉ HEAD_ROWS → pyUpper f0 ∉ FOOT_ROWS →
      ∀ bn, get_block_number fn (f0 :: restf) (st.rowNumber + 1) = .ok bn →
      ∀ row, get_row_object fn ((tbl (pyUpper f0)).getD []) (f0 :: restf)
          (st.rowNumber + 1) (.num bn) = .ok row →
      ∃ st', parseStep tbl fn fno st (f0 :: restf) = .ok st' ∧
        st'.cur.rows.getLast? = some row) := by
  rw [parseStep_dispatch tbl fn fno st f0 restf close hc hT hE]
  constructor
  · intro hclass row hrow hver
    rw [if_pos hclass]
    obtain ⟨cur', heq, hrows⟩ := headFootStep_ok tbl fn (pyUpper f0) (f0 :: restf)
      (st.rowNumber + 1) _ row hrow hver
    refine ⟨_, heq, ?_⟩
    rw [hrows]
    exact getLast?_append_single _ _
  · intro hH hF bn hbn row hrow
    rw [if_neg (by simp [hH, hF])]
    obtain ⟨cur', heq, hrows⟩ := bodyStep_ok tbl fn (pyUpper f0) (f0 :: restf)
      (st.rowNumber + 1) _ bn row hbn hrow
    refine ⟨_, heq, ?_⟩
    rw [hrows]
    exact getLast?_append_single _ _

/-! ## Run-level lemmas -/

/-- `runLines` over a concatenation runs the two halves in sequence,
stopping at the first uncaught exception. -/
theorem runLines_append (tbl : ValidatorTable) (fn : String) (fno : Nat)
    (a b : List (List String)) : ∀ st : ParserSt,
    runLines tbl fn fno st (a ++ b) =
      (match runLines tbl fn fno st a with
       | .ok st' => runLines tbl fn fno st' b
       | .fatal st' e => .fatal st' e) := by
  induction a with
  | nil => intro st; rfl
  | cons l a ih =>
    intro st
    simp only [List.cons_append, runLines]
    cases hs : parseStep tbl fn fno st l with
    | ok st' => exact ih st'
    | fatal st' e => rfl

/-- One step only ever appends to the list of emitted blocks. -/
theorem parseStep_blocks_mono (tbl : ValidatorTable) (fn : String) (fno : Nat)
    (st : ParserSt) (l : List String) :
    ∃ t, (parseStep tbl fn fno st l).state.blocks = st.blocks ++ t := by
  obtain ⟨-, base, hbase, -⟩ := parseStep_cases tbl fn fno st l
  rcases hbase with ⟨hbk, -⟩ | ⟨hbk, -⟩
  · exact ⟨[], by simp [hbk]⟩
  · exact ⟨[st.cur], hbk⟩

/-- A whole run only ever appends to the list of emitted blocks. -/
theorem runLines_blocks_mono (tbl : ValidatorTable) (fn : String) (fno : Nat)
    (ls : List (List String)) : ∀ st : ParserSt,
    ∃ t, (runLines tbl fn fno st ls).state.blocks = st.blocks ++ t := by
  induction ls with
  | nil => intro st; exact ⟨[], by simp [runLines, StepOut.state]⟩
  | cons l rest ih =>
    intro st
    obtain ⟨t₁, ht₁⟩ := parseStep_blocks_mono tbl fn fno st l
    simp only [runLines]
    cases hs : parseStep tbl fn fno st l with
    | ok st' =>
      rw [hs] at ht₁
      simp only [StepOut.state] at ht₁
      obtain ⟨t₂, ht₂⟩ := ih st'
      exact ⟨t₁ ++ t₂, by rw [ht₂, ht₁, List.append_assoc]⟩
    | fatal st' e =>
      rw [hs] at ht₁
      simp only [StepOut.state] at ht₁
      exact ⟨t₁, by simpa [StepOut.state] using ht₁⟩

/-- **C9.** If the first effective line of the file (after a prefix
that left the loop state untouched) is a body row — one whose
extracted block number may even be required to differ from the fresh
block's default number 0, as the claim has it — or a FOOT-class row,
then processing that line first flushes the still-fresh block: the
first emitted block of the whole parse is the empty `initBlock`
(unset type, no rows), and the row built from that line is placed in
the next block. -/
theorem C9_leading_empty_block (tbl : ValidatorTable) (fn : String) (fno : Nat)
    (pre later : List (List String)) (st₁ : ParserSt) (f0 : String)
    (restf : List String)
    (hpre : runLines tbl fn fno (initSt fno) pre = .ok st₁)
    (hcur : st₁.cur = initBlock fno) (hblocks : st₁.blocks = [])
    (hc : pyStartsWith f0 COMMENT_SIGN = false)
    (hT : (tbl (pyUpper f0)).isSome = true)
    (hcase :
      (∃ n row, pyUpper f0 ∉ HEAD_ROWS ∧ pyUpper f0 ∉ FOOT_ROWS ∧
        get_block_number fn (f0 :: restf) (st₁.rowNumber + 1) = .ok n ∧ n ≠ 0 ∧
        get_row_object fn ((tbl (pyUpper f0)).getD []) (f0 :: restf)
          (st₁.rowNumber + 1) (.num n) = .ok row) ∨
      (∃ row, pyUpper f0 ∈ FOOT_ROWS ∧
        get_row_object fn ((tbl (pyUpper f0)).getD []) (f0 :: restf)
          (st₁.rowNumber + 1) (.typ (pyUpper f0)) = .ok row)) :
    (∃ st₂, parseStep tbl fn fno st₁ (f0 :: restf) = .ok st₂ ∧
       st₂.blocks = [initBlock fno] ∧ (initBlock fno).type = none ∧
       (initBlock fno).rows = [] ∧ ∃ row, st₂.cur.rows = [row]) ∧
    (emittedBlocks (parse_file tbl fn fno (pre ++ (f0 :: restf) :: later))).head? =
      some (initBlock fno) := by
  -- the raw first field is not HEAD-class, so the fresh block closes
  have hf0 : f0 ∉ HEAD_ROWS := by
    intro hmem
    have hup := pyUpper_of_mem_HEAD_ROWS hmem
    have hdisj : ∀ x ∈ HEAD_ROWS, x ∉ FOOT_ROWS := by decide
    rcases hcase with ⟨n, row, hH, -, -⟩ | ⟨row, hFt, -⟩
    · exact hH (by rw [hup]; exact hmem)
    · exact (hdisj f0 hmem) (by rw [hup] at hFt; exact hFt)
  have hE : is_end_of_block fn (f0 :: restf) (st₁.rowNumber + 1) st₁.cur = .ok true := by
    rw [hcur]
    simp [is_end_of_block, initBlock, Block.typeVal, hf0]
  have hdisp := parseStep_dispatch tbl fn fno st₁ f0 restf true hc hT hE
  -- the flushed state the branch functions start from
  have hstep : ∃ st₂, parseStep tbl fn fno st₁ (f0 :: restf) = .ok st₂ ∧
      st₂.blocks = [initBlock fno] ∧ ∃ row, st₂.cur.rows = [row] := by
    rcases hcase with ⟨n, row, hH, hF, hbn, -, hrow⟩ | ⟨row, hFt, hrow⟩
    · rw [hdisp, if_neg (by simp [hH, hF]), if_pos rfl]
      obtain ⟨cur', heq, hrows⟩ := bodyStep_ok tbl fn (pyUpper f0) (f0 :: restf)
        (st₁.rowNumber + 1) _ n row hbn hrow
      refine ⟨_, heq, ?_, row, ?_⟩
      · simp [hblocks, hcur]
      · simp only [hrows]
        simp [initBlock]
    · rw [hdisp, if_pos (Or.inr hFt), if_pos rfl]
      have hver : pyUpper f0 = "HEAD" → ∃ v, (f0 :: restf)[1]? = some v := by
        intro hup
        rw [hup] at hFt
        exact absurd hFt (by decide)
      obtain ⟨cur', heq, hrows⟩ := headFootStep_ok tbl fn (pyUpper f0) (f0 :: restf)
        (st₁.rowNumber + 1) _ row hrow hver
      refine ⟨_, heq, ?_, row, ?_⟩
      · simp [hblocks, hcur]
      · simp only [hrows]
        simp [initBlock]
  obtain ⟨st₂, hs2, hb2, hr2⟩ := hstep
  refine ⟨⟨st₂, hs2, hb2, rfl, rfl, hr2⟩, ?_⟩
  -- the whole parse: run pre, this line, then the rest
  have hrun : runLines tbl fn fno (initSt fno) (pre ++ (f0 :: restf) :: later) =
      runLines tbl fn fno st₂ later := by
    rw [runLines_append, hpre]
    show (match parseStep tbl fn fno st₁ (f0 :: restf) with
          | .ok st' => runLines tbl fn fno st' later
          | .fatal st' e => .fatal st' e) = _
    rw [hs2]
  obtain ⟨t, ht⟩ := runLines_blocks_mono tbl fn fno later st₂
  rw [hb2] at ht
  unfold parse_file
  rw [hrun]
  cases hr : runLines tbl fn fno st₂ later with
  | ok stf =>
    rw [hr] at ht
    simp only [StepOut.state] at ht
    show ((stf.blocks ++ [stf.cur]).head? = _)
    rw [ht]
    rfl
  | fatal stf e =>
    rw [hr] at ht
    simp only [StepOut.state] at ht
    show (stf.blocks.head? = _)
    rw [ht]
    rfl

/-- Witness for `C9_leading_empty_block`: a file whose only line is the
body row `BODY01 5` yields the empty fresh block first. -/
theorem C9_leading_empty_block_witness :
    (∃ st₂, parseStep tblW "f" 1 (initSt 1) ["BODY01", "5"] = .ok st₂ ∧
       st₂.blocks = [initBlock 1] ∧ (initBlock 1).type = none ∧
       (initBlock 1).rows = [] ∧ ∃ row, st₂.cur.rows = [row]) ∧
    (emittedBlocks (parse_file tblW "f" 1 ([] ++ ["BODY01", "5"] :: []))).head? =
      some (initBlock 1) :=
  C9_leading_empty_block tblW "f" 1 [] [] (initSt 1) "BODY01" ["5"] rfl rfl rfl rfl rfl
    (Or.inl ⟨5, { type := "BODY01", row_number := 1, cells := [] }, by decide, by decide,
      rfl, by decide, rfl⟩)

/-- Witness for `C10_validator_block_context`: a body row and a
FOOT-class row, each appended as the row built with its respective
block-context argument. -/
theorem C10_validator_block_context_witness :
    (∃ st', parseStep tblW "f" 1 (initSt 1) ["BODY01", "5", "x"] = .ok st' ∧
       st'.cur.rows.getLast? =
         some { type := "BODY01", row_number := 1, cells := [] }) ∧
    (∃ st', parseStep tblW "f" 1 (initSt 1) ["FOOT", "done"] = .ok st' ∧
       st'.cur.rows.getLast? = some { type := "FOOT", row_number := 1, cells := [] }) :=
  ⟨(C10_validator_block_context tblW "f" 1 (initSt 1) "BODY01" ["5", "x"] true
      rfl rfl rfl).2 (by decide) (by decide) 5 rfl
      { type := "BODY01", row_number := 1, cells := [] } rfl,
   (C10_validator_block_context tblW "f" 1 (initSt 1) "FOOT" ["done"] true
      rfl rfl rfl).1 (by decide)
      { type := "FOOT", row_number := 1, cells := [] } rfl
      (fun h => absurd h (by decide))⟩

/-! ## Row-number invariant (claim C6) -/

/-- A well-placed row relative to the source lines `L` and a bound `k`
on consumed lines: its 1-based row number is within bounds and points
back at the very source line it was built from (whose first field,
upper-cased, is the row's type). -/
def GoodRow (L : List (List String)) (k : Nat) (r : Row) : Prop :=
  1 ≤ r.row_number ∧ r.row_number ≤ k ∧
  ∃ f t, L[r.row_number - 1]? = some (f :: t) ∧ r.type = pyUpper f

/-- A well-placed row list: row numbers strictly increasing, each row
well placed. -/
def GoodRows (L : List (List String)) (k : Nat) (rs : List Row) : Prop :=
  List.Pairwise (· < ·) (rs.map Row.row_number) ∧ ∀ r ∈ rs, GoodRow L k r

theorem GoodRow_mono {L : List (List String)} {k k' : Nat} {r : Row}
    (h : GoodRow L k r) (hk : k ≤ k') : GoodRow L k' r :=
  ⟨h.1, h.2.1.trans hk, h.2.2⟩

theorem GoodRows_mono {L : List (List String)} {k k' : Nat} {rs : List Row}
    (h : GoodRows L k rs) (hk : k ≤ k') : GoodRows L k' rs :=
  ⟨h.1, fun r hr => GoodRow_mono (h.2 r hr) hk⟩

theorem GoodRows_append {L : List (List String)} {k : Nat} {rs : List Row} {row : Row}
    (h : GoodRows L k rs) (hrow : GoodRow L (k + 1) row)
    (hn : row.row_number = k + 1) :
    GoodRows L (k + 1) (rs ++ [row]) := by
  constructor
  · rw [List.map_append, List.pairwise_append]
    refine ⟨h.1, by simp, ?_⟩
    intro a ha c hc
    simp only [List.map_cons, List.map_nil, List.mem_singleton] at hc
    rcases List.mem_map.mp ha with ⟨r, hr, rfl⟩
    subst hc
    rw [hn]
    exact Nat.lt_succ_of_le (h.2 r hr).2.1
  · intro r hr
    rcases List.mem_append.mp hr with h1 | h1
    · exact GoodRow_mono (h.2 r h1) (Nat.le_succ k)
    · rw [List.mem_singleton] at h1
      subst h1
      exact hrow

/-- One step preserves the invariant: the counter advances past the
line just consumed, and every row everywhere stays well placed. -/
theorem parseStep_inv (tbl : ValidatorTable) (fn : String) (fno : Nat)
    (L : List (List String)) (st : ParserSt) (l : List String)
    (hl : L[st.rowNumber]? = some l)
    (hcur : GoodRows L st.rowNumber st.cur.rows)
    (hblocks : ∀ b ∈ st.blocks, GoodRows L st.rowNumber b.rows) :
    (parseStep tbl fn fno st l).state.rowNumber = st.rowNumber + 1 ∧
    GoodRows L (st.rowNumber + 1) (parseStep tbl fn fno st l).state.cur.rows ∧
    ∀ b ∈ (parseStep tbl fn fno st l).state.blocks,
      GoodRows L (st.rowNumber + 1) b.rows := by
  obtain ⟨h1, base, hbase, hrows⟩ := parseStep_cases tbl fn fno st l
  have hbase_good : GoodRows L st.rowNumber base := by
    rcases hbase with ⟨-, hb⟩ | ⟨-, hb⟩
    · rw [hb]; exact hcur
    · rw [hb]; exact ⟨List.Pairwise.nil, by simp⟩
  refine ⟨h1, ?_, ?_⟩
  · rcases hrows with h | ⟨f0, restf, row, hlf, hrn, hty, h⟩
    · rw [h]; exact GoodRows_mono hbase_good (Nat.le_succ _)
    · rw [h]
      refine GoodRows_append hbase_good ?_ hrn
      refine ⟨?_, ?_, f0, restf, ?_, hty⟩
      · rw [hrn]; exact Nat.succ_le_succ (Nat.zero_le _)
      · rw [hrn]
      · rw [hrn]
        simpa [hlf] using hl
  · intro b hb
    rcases hbase with ⟨hbk, -⟩ | ⟨hbk, -⟩
    · rw [hbk] at hb
      exact GoodRows_mono (hblocks b hb) (Nat.le_succ _)
    · rw [hbk] at hb
      rcases List.mem_append.mp hb with h1' | h1'
      · exact GoodRows_mono (hblocks b h1') (Nat.le_succ _)
      · rw [List.mem_singleton] at h1'
        subst h1'
        exact GoodRows_mono hcur (Nat.le_succ _)

/-- The run-level invariant: starting in a good state whose counter
matches the lines already consumed, the final state (also of an
aborted run) keeps every row well placed and its counter within the
file length. -/
theorem runLines_inv (tbl : ValidatorTable) (fn : String) (fno : Nat)
    (L : List (List String)) :
    ∀ (rest : List (List String)) (st : ParserSt),
    L.drop st.rowNumber = rest → st.rowNumber ≤ L.length →
    GoodRows L st.rowNumber st.cur.rows →
    (∀ b ∈ st.blocks, GoodRows L st.rowNumber b.rows) →
    ((runLines tbl fn fno st rest).state.rowNumber ≤ L.length ∧
     GoodRows L (runLines tbl fn fno st rest).state.rowNumber
       (runLines tbl fn fno st rest).state.cur.rows ∧
     ∀ b ∈ (runLines tbl fn fno st rest).state.blocks,
       GoodRows L (runLines tbl fn fno st rest).state.rowNumber b.rows) := by
  intro rest
  induction rest with
  | nil =>
    intro st hdrop hk hcur hblocks
    exact ⟨hk, hcur, hblocks⟩
  | cons l rest ih =>
    intro st hdrop hk hcur hblocks
    have hl : L[st.rowNumber]? = some l := by
      have h0 : (L.drop st.rowNumber)[0]? = some l := by rw [hdrop]; simp
      rwa [List.getElem?_drop, Nat.add_zero] at h0
    have hklt : st.rowNumber < L.length := by
      by_contra hge
      rw [List.getElem?_eq_none (Nat.le_of_not_lt hge)] at hl
      cases hl
    have hdrop' : L.drop (st.rowNumber + 1) = rest := by
      have hdd := List.drop_drop 1 st.rowNumber L
      rw [← hdd, hdrop]
      rfl
    obtain ⟨h1, h2, h3⟩ := parseStep_inv tbl fn fno L st l hl hcur hblocks
    simp only [runLines]
    cases hs : parseStep tbl fn fno st l with
    | ok st' =>
      rw [hs] at h1 h2 h3
      simp only [StepOut.state] at h1 h2 h3
      exact ih st' (by rw [h1]; exact hdrop') (by rw [h1]; exact hklt)
        (by rw [h1]; exact h2) (by rw [h1]; exact h3)
    | fatal st' e =>
      rw [hs] at h1 h2 h3
      simp only [StepOut.state] at h1 h2 h3 ⊢
      rw [h1]
      exact ⟨hklt, h2, h3⟩

/-- **C6.** In every emitted block (also of an aborted run), the row
numbers are strictly increasing, 1-based, bounded by the file length,
and each row points back at the surviving physical line it came from:
the line at (0-based) index `row_number - 1` starts with a field whose
upper-casing is the row's type. -/
theorem C6_row_numbers (tbl : ValidatorTable) (fn : String) (fno : Nat)
    (L : List (List String)) (b : Block)
    (hb : b ∈ emittedBlocks (parse_file tbl fn fno L)) :
    List.Pairwise (· < ·) (b.rows.map Row.row_number) ∧
    ∀ r ∈ b.rows, 1 ≤ r.row_number ∧ r.row_number ≤ L.length ∧
      ∃ f t, L[r.row_number - 1]? = some (f :: t) ∧ r.type = pyUpper f := by
  have hinv := runLines_inv tbl fn fno L L (initSt fno) rfl (Nat.zero_le _)
    ⟨List.Pairwise.nil, fun r hr => absurd hr (List.not_mem_nil r)⟩
    (fun bb hbb => absurd hbb (List.not_mem_nil bb))
  have hgood : GoodRows L L.length b.rows := by
    unfold parse_file at hb
    cases hr : runLines tbl fn fno (initSt fno) L with
    | ok stf =>
      rw [hr] at hb hinv
      simp only [StepOut.state] at hinv
      simp only [emittedBlocks] at hb
      obtain ⟨hkL, hcurf, hblocksf⟩ := hinv
      rcases List.mem_append.mp hb with h1 | h1
      · exact GoodRows_mono (hblocksf b h1) hkL
      · rw [List.mem_singleton] at h1
        subst h1
        exact GoodRows_mono hcurf hkL
    | fatal stf e =>
      rw [hr] at hb hinv
      simp only [StepOut.state] at hinv
      simp only [emittedBlocks] at hb
      obtain ⟨hkL, -, hblocksf⟩ := hinv
      exact GoodRows_mono (hblocksf b hb) hkL
  exact ⟨hgood.1, fun r hr => hgood.2 r hr⟩

/-- Witness for `C6_row_numbers`: the HEAD block emitted on a two-line
file has strictly increasing row numbers and its row points back at
line 1. -/
theorem C6_row_numbers_witness :
    List.Pairwise (· < ·)
      (({ file_number := 1, type := some BlockType.HEAD, number := 0, version := "3.0", rows := [{ type := "HEAD", row_number := 1, cells := [] }] } : Block).rows.map Row.row_number) :=
  (C6_row_numbers tblW "f" 1 [["HEAD", "3.0"], ["FOOT", "x"]]
    { file_number := 1, type := some BlockType.HEAD, number := 0, version := "3.0", rows := [{ type := "HEAD", row_number := 1, cells := [] }] }
    (by decide)).1

/-! ## Cell invariants (claim C8) -/

theorem strList_length : ∀ {vs : List PyVal} {ss : List String},
    strList vs = some ss → ss.length = vs.length := by
  intro vs
  induction vs with
  | nil => intro ss h; cases h; rfl
  | cons v rest ih =>
    intro ss h
    cases v with
    | str s =>
      simp only [strList] at h
      cases hr : strList rest with
      | none => rw [hr] at h; cases h
      | some ss' => rw [hr] at h; cases h; simp [ih hr]
    | int i => simp only [strList] at h; cases h
    | dec q => simp only [strList] at h; cases h
    | bool b => simp only [strList] at h; cases h

theorem intList_length : ∀ {vs : List PyVal} {is : List Int},
    intList vs = some is → is.length = vs.length := by
  intro vs
  induction vs with
  | nil => intro is h; cases h; rfl
  | cons v rest ih =>
    intro is h
    cases v with
    | int i =>
      simp only [intList] at h
      cases hr : intList rest with
      | none => rw [hr] at h; cases h
      | some is' => rw [hr] at h; cases h; simp [ih hr]
    | str s => simp only [intList] at h; cases h
    | dec q => simp only [intList] at h; cases h
    | bool b => simp only [intList] at h; cases h

theorem decList_length : ∀ {vs : List PyVal} {ds : List Rat},
    decList vs = some ds → ds.length = vs.length := by
  intro vs
  induction vs with
  | nil => intro ds h; cases h; rfl
  | cons v rest ih =>
    intro ds h
    cases v with
    | dec q =>
      simp only [decList] at h
      cases hr : decList rest with
      | none => rw [hr] at h; cases h
      | some ds' => rw [hr] at h; cases h; simp [ih hr]
    | str s => simp only [decList] at h; cases h
    | int i => simp only [decList] at h; cases h
    | bool b => simp only [decList] at h; cases h

theorem boolList_length : ∀ {vs : List PyVal} {bs : List Bool},
    boolList vs = some bs → bs.length = vs.length := by
  intro vs
  induction vs with
  | nil => intro bs h; cases h; rfl
  | cons v rest ih =>
    intro bs h
    cases v with
    | bool b =>
      simp only [boolList] at h
      cases hr : boolList rest with
      | none => rw [hr] at h; cases h
      | some bs' => rw [hr] at h; cases h; simp [ih hr]
    | str s => simp only [boolList] at h; cases h
    | int i => simp only [boolList] at h; cases h
    | dec q => simp only [boolList] at h; cases h

/-- A successfully built cell holds exactly as many values as the
validator's parsed data had, and all of them carry the cell's declared
type. -/
theorem get_cell_object_values {cv : CellValidator} {d : PyData} {c : Cell}
    (h : get_cell_object cv d = .ok c) :
    (∀ v ∈ c.values, pyTypeOf v = c.cell_type) ∧
    c.values.length = (pyDataList d).length := by
  unfold get_cell_object at h
  cases hct : cv.cell_type <;> rw [hct] at h
  case STRING =>
    cases hs : strList (pyDataList d) with
    | none => rw [hs] at h; cases h
    | some ss =>
      rw [hs] at h
      cases h
      constructor
      · intro v hv
        simp only [Cell.values, List.map_nil, List.append_nil, List.nil_append] at hv
        rcases List.mem_map.mp hv with ⟨s, -, rfl⟩
        rfl
      · simp [Cell.values, strList_length hs]
  case INTEGER =>
    cases hs : intList (pyDataList d) with
    | none => rw [hs] at h; cases h
    | some is =>
      rw [hs] at h
      cases h
      constructor
      · intro v hv
        simp only [Cell.values, List.map_nil, List.append_nil, List.nil_append] at hv
        rcases List.mem_map.mp hv with ⟨i, -, rfl⟩
        rfl
      · simp [Cell.values, intList_length hs]
  case DECIMAL =>
    cases hs : decList (pyDataList d) with
    | none => rw [hs] at h; cases h
    | some ds =>
      rw [hs] at h
      cases h
      constructor
      · intro v hv
        simp only [Cell.values, List.map_nil, List.append_nil, List.nil_append] at hv
        rcases List.mem_map.mp hv with ⟨q, -, rfl⟩
        rfl
      · simp [Cell.values, decList_length hs]
  case BOOLEAN =>
    cases hs : boolList (pyDataList d) with
    | none => rw [hs] at h; cases h
    | some bs =>
      rw [hs] at h
      cases h
      constructor
      · intro v hv
        simp only [Cell.values, List.map_nil, List.append_nil, List.nil_append] at hv
        rcases List.mem_map.mp hv with ⟨b, -, rfl⟩
        rfl
      · simp [Cell.values, boolList_length hs]

/-- Provenance of each built cell: it came from some configured
validator paired with its column's content, whose result was neither
`None` nor the empty string. -/
theorem build_cells_mem (fn : String) (rn : Nat) (bn : BlockCtx) :
    ∀ (ps : List (Option CellValidator × String)) (cs : List Cell),
    build_cells fn rn bn ps = .ok cs → ∀ c ∈ cs,
    ∃ cv content d, (some cv, content) ∈ ps ∧
      cv.validate_value content rn fn bn = .ok (some d) ∧
      d ≠ PyData.scalar (.str "") ∧ get_cell_object cv d = .ok c := by
  intro ps
  induction ps with
  | nil =>
    intro cs h c hc
    cases h
    cases hc
  | cons p rest ih =>
    rcases p with ⟨ocv, content⟩
    cases ocv with
    | none =>
      intro cs h c hc
      obtain ⟨cv', ct', d', hmem, h2, h3, h4⟩ := ih cs h c hc
      exact ⟨cv', ct', d', List.mem_cons_of_mem _ hmem, h2, h3, h4⟩
    | some cv =>
      intro cs h c hc
      simp only [build_cells] at h
      cases hv : cv.validate_value content rn fn bn with
      | error msg => rw [hv] at h; cases h
      | ok od =>
        cases od with
        | none =>
          simp only [hv] at h
          obtain ⟨cv', ct', d', hmem, h2, h3, h4⟩ := ih cs h c hc
          exact ⟨cv', ct', d', List.mem_cons_of_mem _ hmem, h2, h3, h4⟩
        | some d =>
          simp only [hv] at h
          by_cases hd : d = PyData.scalar (.str "")
          · rw [if_pos hd] at h
            obtain ⟨cv', ct', d', hmem, h2, h3, h4⟩ := ih cs h c hc
            exact ⟨cv', ct', d', List.mem_cons_of_mem _ hmem, h2, h3, h4⟩
          · rw [if_neg hd] at h
            cases hg : get_cell_object cv d with
            | error e => simp only [hg] at h; cases h
            | ok c0 =>
              simp only [hg] at h
              cases hb : build_cells fn rn bn rest with
              | error e => simp only [hb, Except.map] at h; cases h
              | ok cs' =>
                simp only [hb, Except.map] at h
                cases h
                rcases List.mem_cons.mp hc with rfl | hmem
                · exact ⟨cv, content, d, List.mem_cons_self _ _, hv, hd, hg⟩
                · obtain ⟨cv', ct', d', hmem', h2, h3, h4⟩ := ih cs' hb c hmem
                  exact ⟨cv', ct', d', List.mem_cons_of_mem _ hmem', h2, h3, h4⟩

/-- **C8.** Every cell of a successfully built row was created for a
column whose validator returned a non-absent result other than the
empty string; provided the validators conform to the capability
contract (multi-valued results carry 1..N values, never an empty
list), its `values` are non-empty; and every entry of `values` has the
cell's declared `cell_type`. -/
theorem C8_emitted_cells (fn : String) (rvs : List (Option CellValidator))
    (l : List String) (rn : Nat) (bn : BlockCtx) (row : Row)
    (hrow : get_row_object fn rvs l rn bn = .ok row)
    (hconf : ∀ cv : CellValidator, some cv ∈ rvs →
      ∀ (content : String) (rn' : Nat) (bn' : BlockCtx),
      cv.validate_value content rn' fn bn' ≠ Except.ok (some (PyData.list [])))
    (c : Cell) (hc : c ∈ row.cells) :
    (∃ cv content d, (some cv, content) ∈ rvs.zip l ∧
       cv.validate_value content rn fn bn = .ok (some d) ∧
       d ≠ PyData.scalar (.str "") ∧ get_cell_object cv d = .ok c) ∧
    c.values ≠ [] ∧ ∀ v ∈ c.values, pyTypeOf v = c.cell_type := by
  have hcells : ∃ cs, build_cells fn rn bn (rvs.zip l) = .ok cs ∧ row.cells = cs := by
    unfold get_row_object at hrow
    cases l with
    | nil => cases hrow
    | cons f0 restf =>
      cases hb : build_cells fn rn bn (rvs.zip (f0 :: restf)) with
      | error e => rw [hb] at hrow; cases hrow
      | ok cs =>
        rw [hb] at hrow
        cases hrow
        exact ⟨cs, rfl, rfl⟩
  obtain ⟨cs, hb, hcs⟩ := hcells
  rw [hcs] at hc
  obtain ⟨cv, content, d, hmem, hv, hd, hg⟩ := build_cells_mem fn rn bn (rvs.zip l) cs hb c hc
  have hmem' : some cv ∈ rvs := (List.of_mem_zip hmem).1
  refine ⟨⟨cv, content, d, hmem, hv, hd, hg⟩, ?_, (get_cell_object_values hg).1⟩
  have hlen := (get_cell_object_values hg).2
  intro hnil
  rw [hnil] at hlen
  cases d with
  | scalar v => simp [pyDataList] at hlen
  | list vs =>
    simp only [pyDataList, List.length_nil] at hlen
    have hvs : vs = [] := List.length_eq_zero.mp hlen.symm
    subst hvs
    exact hconf cv hmem' content rn bn hv

/-- Witness for `C8_emitted_cells`: the single cell built from an
accept-all string validator on content "hello" has non-empty,
all-string values. -/
theorem C8_emitted_cells_witness :
    ({ name := "A", cell_type := CellType.STRING, string_value := ["hello"] } : Cell).values ≠ [] ∧
    ∀ v ∈ ({ name := "A", cell_type := CellType.STRING, string_value := ["hello"] } : Cell).values,
      pyTypeOf v = CellType.STRING :=
  have happ := C8_emitted_cells "f" [some (acceptString "A")] ["hello"] 1 (.num 0)
    { type := "HELLO", row_number := 1, cells := [{ name := "A", cell_type := .STRING, string_value := ["hello"] }] }
    rfl
    (fun cv hm content rn' bn' hEq => by
      rw [List.mem_singleton] at hm
      obtain rfl : cv = acceptString "A" := Option.some.inj hm
      simp [acceptString] at hEq)
    { name := "A", cell_type := .STRING, string_value := ["hello"] }
    (List.mem_singleton.mpr rfl)
  ⟨happ.2.1, happ.2.2⟩

end DSRF
